import Mathlib

/-!
Verification of the model-selection pipeline of the Run-Rate-Forecaster
repository: the forecasting model variants, the backtesting harness, the
best-model selection rule, the metric calculator and the grid-search
parameter optimizer.

The embedding works over exact rationals; timestamps are integers counting
days, so that the pandas frequency of one day corresponds to a step of one.
A pandas Series is embedded as a list of (timestamp, value) pairs, and a
Series that may hold missing values as a list of (timestamp, optional value)
pairs.  Scores that the source represents as floats with the infinity
sentinel are embedded as optional rationals, where the empty option stands
for positive infinity.  Fallible Python code is embedded with the Except
monad: an error value stands for a raised exception.
-/

set_option autoImplicit false

namespace RunRate

/-- Timestamps: days since an arbitrary epoch (the pandas daily frequency). -/
abbrev Date := Int

/-- A pandas Series of rationals indexed by dates. -/
abbrev Series := List (Date × Rat)

/-- A pandas Series that may hold missing (NaN) values. -/
abbrev SeriesN := List (Date × Option Rat)

/-- A float score with the infinity sentinel: the empty option is plus
infinity, as produced by the Python literal float of inf. -/
abbrev EScore := Option Rat

/-- Strict less-than on scores, matching IEEE comparison with infinity:
infinity is below nothing, every finite value is below infinity. -/
def escLt : EScore → EScore → Bool
  | some a, some b => decide (a < b)
  | some _, none => true
  | none, _ => false

/-- Normalized Python position: a nonnegative position indexes from the
front, a negative position counts back from the end. -/
def pyIdx (n : Nat) (k : Int) : Int := if k < 0 then (n : Int) + k else k

/-- Python indexing into a list, continued: Series.iloc with an integer
raises IndexError when the normalized position falls outside the list. -/
def pyIloc {α : Type} (l : List α) (k : Int) : Except String α :=
  if h : 0 ≤ pyIdx l.length k ∧ (pyIdx l.length k).toNat < l.length then
    .ok (l.get ⟨(pyIdx l.length k).toNat, h.2⟩)
  else .error "index out of range"

/-- Python slice from the start: l[:k], with the usual clamping and
negative-position semantics. -/
def pyTake {α : Type} (l : List α) (k : Int) : List α :=
  if 0 ≤ k then l.take k.toNat else l.take (l.length - (-k).toNat)

/-- Python slice to the end: l[k:], with the usual clamping and
negative-position semantics. -/
def pyDrop {α : Type} (l : List α) (k : Int) : List α :=
  if 0 ≤ k then l.drop k.toNat else l.drop (l.length - (-k).toNat)

/-- Python slice l[-w:] for a natural w: the last w elements, except that
w = 0 denotes l[0:], the whole list. -/
def lastSlice {α : Type} (l : List α) (w : Nat) : List α :=
  if w = 0 then l else l.drop (l.length - w)

/-- Python int() applied to a rational: truncation toward zero. -/
def pyInt (q : Rat) : Int := q.num.tdiv (q.den : Int)

/-- The pandas date_range of daily timestamps that every predict method
builds: steps consecutive days starting one day after last. -/
def forecastDates (last : Date) (steps : Nat) : List Date :=
  (List.range steps).map (fun (i : Nat) => last + 1 + (i : Int))

/-- A constant-step forecast series: value v i on day last + 1 + i. -/
def forecastSeries (last : Date) (steps : Nat) (v : Nat → Rat) : Series :=
  (List.range steps).map (fun (i : Nat) => (last + 1 + (i : Int), v i))

/-- Arithmetic mean of a list of rationals (numpy mean on a nonempty list). -/
def listMean (l : List Rat) : Rat := l.sum / (l.length : Rat)

/-- Sum of index-weighted values: the sum of i * y i over the enumerated
list, used by the least-squares slope. -/
def idxWeightedSum (ys : List Rat) : Rat :=
  (ys.enum.map (fun p => (p.1 : Rat) * p.2)).sum

/-- Ordinary least squares slope of value against the index 0, 1, ... n-1,
the exact rational value computed by sklearn LinearRegression on that
design; the denominator is nonzero whenever the list has at least two
elements. -/
def olsSlope (ys : List Rat) : Rat :=
  let n : Rat := (ys.length : Rat)
  let sx : Rat := ((List.range ys.length).map (fun (i : Nat) => (i : Rat))).sum
  let sxx : Rat := ((List.range ys.length).map (fun (i : Nat) => (i : Rat) * (i : Rat))).sum
  (n * idxWeightedSum ys - sx * ys.sum) / (n * sxx - sx * sx)

/-- Ordinary least squares intercept for the same design: mean of y minus
slope times mean of x. -/
def olsIntercept (ys : List Rat) (slope : Rat) : Rat :=
  listMean ys - slope * (((ys.length : Rat) - 1) / 2)

/-- Sequential mapping of a fallible function over a list, stopping at the
first error, exactly as a Python for loop that may raise. -/
def mapExcept {α β : Type} (f : α → Except String β) : List α → Except String (List β)
  | [] => .ok []
  | a :: l =>
    match f a with
    | .error e => .error e
    | .ok b => (mapExcept f l).map (fun bs => b :: bs)

/-- Last date of a series, the pandas data.index[-1] when the series is
nonempty. -/
def lastDate (data : Series) : Date := (data.map Prod.fst).getLastD 0

/-- A series whose date index is contiguous at the daily frequency, the
input contract of the pipeline. -/
def dailyContiguous : Series → Bool
  | [] => true
  | [_] => true
  | a :: b :: l => (b.1 == a.1 + 1) && dailyContiguous (b :: l)

/-- First value bound to a key in an association list, mirroring both the
Python dict and the pandas index lookup used by align. -/
def lookupFst {α : Type} [DecidableEq α] {β : Type} (k : α) : List (α × β) → Option β
  | [] => none
  | p :: l => if p.1 = k then some p.2 else lookupFst k l

/-- Is an Except value a success. -/
def exOk {α : Type} (e : Except String α) : Bool :=
  match e with
  | .ok _ => true
  | .error _ => false

instance {ε α : Type} [DecidableEq ε] [DecidableEq α] : DecidableEq (Except ε α) := fun x y => by
  cases x <;> cases y <;>
    first
      | exact .isFalse (fun hc => Except.noConfusion hc)
      | (rename_i a b
         exact if h : a = b then .isTrue (by rw [h])
           else .isFalse (fun hc => by injection hc; contradiction))

/-- State of a fitted statsmodels ExponentialSmoothing model: the training
data and the configuration it was built with. -/
structure SMESFitted where
  data : Series
  trend : Option String
  seasonal : Option String
  seasonal_periods : Option Nat
deriving DecidableEq

/-- Modelled from the statsmodels library (an external dependency, not part
of this repository): constructing and fitting holtwinters.ExponentialSmoothing
raises on an empty endog, raises when a multiplicative trend or seasonal
component meets a nonpositive value, and raises when a seasonal component is
requested with fewer than two full seasonal cycles of data; with a daily
index and no explicit seasonal_periods the library infers a period of seven.
Otherwise the fit succeeds.  The numerically optimized smoothing parameters
are not reproduced here; smForecast takes the resulting forecast values as a
parameter. -/
def smESFit (data : Series) (trend seasonal : Option String)
    (seasonal_periods : Option Nat) : Except String SMESFitted :=
  if data.isEmpty then .error "empty endog"
  else if (trend == some "mul" || seasonal == some "mul")
      && data.any (fun p => decide (p.2 ≤ 0)) then
    .error "endog must be strictly positive"
  else if seasonal.isSome && decide (data.length < 2 * seasonal_periods.getD 7) then
    .error "need two full seasonal cycles"
  else .ok ⟨data, trend, seasonal, seasonal_periods⟩

/-- Modelled from the statsmodels library: forecast on a fitted model whose
training data carries a daily date index returns steps values indexed by the
steps consecutive days after the last training date.  The forecast values
themselves depend on the optimized smoothing parameters, so they are
supplied by the parameter g. -/
def smForecast (g : SMESFitted → Nat → Rat) (f : SMESFitted) (steps : Nat) : Series :=
  forecastSeries (lastDate f.data) steps (g f)

/-- The five model variants of forecasting_models.py with their constructor
hyperparameters. -/
inductive Model where
  | naive : Model
  | seasonalNaive (seasonal_period : Nat) : Model
  | movingAverage (window : Nat) : Model
  | linearRegression : Model
  | expSmooth (trend seasonal : Option String) (seasonal_periods : Option Nat) : Model
deriving DecidableEq

/-- The name attribute each variant passes to the base-class constructor. -/
def Model.name : Model → String
  | .naive => "Naive"
  | .seasonalNaive _ => "Seasonal Naive"
  | .movingAverage _ => "Moving Average"
  | .linearRegression => "Linear Regression"
  | .expSmooth _ _ _ => "Exponential Smoothing"

/-- Fitted state of each variant, the instance attributes set by fit. -/
inductive Fitted where
  | naive (last_value : Rat) (data : Series) : Fitted
  | seasonal (seasonal_period : Nat) (data : Series) : Fitted
  | ma (window : Nat) (trend_slope : Rat) (data : Series) : Fitted
  | linreg (slope intercept : Rat) (data : Series) : Fitted
  | es (f : SMESFitted) : Fitted
deriving DecidableEq

/-- The fit method of each variant.
NaiveModel.fit stores data.iloc[-1], which raises on an empty series.
SeasonalNaiveModel.fit only stores the data.
MovingAverageModel.fit stores the data and computes a least-squares trend
slope over the last min(30, len) observations, or zero when fewer than two
points are available; sklearn is only invoked with at least two samples, so
this never raises.
LinearRegressionModel.fit runs sklearn LinearRegression on the index 0..n-1,
which raises on zero samples.
ExponentialSmoothingModel.fit tries the configured statsmodels fit, and on
any exception falls back to a fit with no trend and no seasonal component;
an exception from the fallback itself propagates. -/
def Model.fit : Model → Series → Except String Fitted
  | .naive, data => (pyIloc data (-1)).map (fun p => .naive p.2 data)
  | .seasonalNaive sp, data => .ok (.seasonal sp data)
  | .movingAverage w, data =>
    let recent := lastSlice data (min 30 data.length)
    let slope := if recent.length > 1 then olsSlope (recent.map Prod.snd) else 0
    .ok (.ma w slope data)
  | .linearRegression, data =>
    if data.length = 0 then .error "found array with 0 samples"
    else
      let ys := data.map Prod.snd
      let slope := if ys.length > 1 then olsSlope ys else 0
      .ok (.linreg slope (olsIntercept ys slope) data)
  | .expSmooth t s sp, data =>
    match smESFit data t s sp with
    | .ok f => .ok (.es f)
    | .error _ => (smESFit data none none none).map .es

/-- The predict method of each variant, parametrized by the statsmodels
forecast values g.  Every variant except Exponential Smoothing reads
data.index[-1] (raising on an empty index) and emits values on the daily
date_range starting one day later.
Naive repeats the stored last value.
Moving Average emits the mean of the last window values plus (i+1) times the
trend slope.
Seasonal Naive reads data.iloc[-p + (i mod p)] for step i, which raises when
p exceeds the data length, and divides by zero when p = 0 and steps is
positive.
Linear Regression extrapolates the fitted line at indices n..n+steps-1.
Exponential Smoothing returns the statsmodels forecast unchanged. -/
def Model.predict (g : SMESFitted → Nat → Rat) : Fitted → Nat → Except String Series
  | .naive lv data, steps =>
    match data.getLast? with
    | none => .error "index out of range"
    | some p => .ok (forecastSeries p.1 steps (fun _ => lv))
  | .ma w slope data, steps =>
    match data.getLast? with
    | none => .error "index out of range"
    | some p =>
      let avg := listMean ((lastSlice data w).map Prod.snd)
      .ok (forecastSeries p.1 steps (fun i => avg + ((i : Rat) + 1) * slope))
  | .seasonal sp data, steps =>
    match data.getLast? with
    | none => .error "index out of range"
    | some p =>
      let vals := data.map Prod.snd
      (mapExcept (fun (i : Nat) =>
          if sp = 0 then .error "integer modulo by zero"
          else pyIloc vals (-(sp : Int) + ((i % sp : Nat) : Int)))
        (List.range steps)).map
        (fun preds => (forecastDates p.1 steps).zip preds)
  | .linreg slope intercept data, steps =>
    match data.getLast? with
    | none => .error "index out of range"
    | some p =>
      .ok (forecastSeries p.1 steps
        (fun i => intercept + slope * ((data.length : Rat) + (i : Rat))))
  | .es f, steps => .ok (smForecast g f steps)

/-- Aligned (actual, predicted) value pairs: pandas align with an inner join
followed by the NaN mask of calculate_metrics keeps exactly the positions
whose index occurs in both series with a non-missing value on both sides,
in the order of the actual series. -/
def alignedPairs (actual predicted : SeriesN) : List (Rat × Rat) :=
  actual.filterMap (fun q =>
    match q.2, lookupFst q.1 predicted with
    | some va, some (some vp) => some (va, vp)
    | _, _ => none)

/-- Modelled from sklearn: mean_absolute_error is the mean absolute
difference. -/
def skMAE (pairs : List (Rat × Rat)) : Rat :=
  listMean (pairs.map (fun q => |q.1 - q.2|))

/-- Modelled from sklearn: mean_absolute_percentage_error is the mean of the
absolute difference over the absolute actual value, the latter clamped from
below by the float64 machine epsilon. -/
def skMAPE (pairs : List (Rat × Rat)) : Rat :=
  listMean (pairs.map (fun q => |q.1 - q.2| / max (|q.1|) ((1 : Rat) / 4503599627370496)))

/-- The epsilon the source substitutes for a zero actual value, the float
literal 1e-10. -/
def mapeEpsilon : Rat := 1 / 10000000000

/-- calculate_metrics of forecasting_models.py: align the two series keeping
positions present and non-missing in both; with no aligned point left return
infinite MAE and MAPE; otherwise compute the sklearn MAE, and the sklearn
MAPE after replacing any exactly zero actual value by 1e-10. -/
def calculate_metrics (actual predicted : SeriesN) : EScore × EScore :=
  let aligned := alignedPairs actual predicted
  if aligned.length = 0 then (none, none)
  else
    let mae := skMAE aligned
    let aligned2 :=
      if aligned.any (fun q => decide (q.1 = 0)) then
        aligned.map (fun q => (if q.1 = 0 then mapeEpsilon else q.1, q.2))
      else aligned
    (some mae, some (skMAPE aligned2))

/-- One backtest record: the keys of the result dict of
Backtester.backtest_single_model.  The actual and error keys are optional
because the source only sometimes stores them. -/
structure BTResult where
  mae : EScore
  mape : EScore
  predictions : List Rat
  actual : Option (List Rat)
  error : Option String
deriving DecidableEq

/-- The train/test split of backtest_single_model: cut at int(len * train_size)
preserving time order. -/
def btSplit (data : Series) (train_size : Rat) : Series × Series :=
  let split_index := pyInt ((data.length : Rat) * train_size)
  (pyTake data split_index, pyDrop data split_index)

/-- Backtester.backtest_single_model: split the series, shrink the horizon
to the test length when the test portion is shorter, return infinite scores
immediately when the resulting horizon is nonpositive, and otherwise fit,
predict, and score, converting any exception into an error-tagged record
with infinite scores. -/
def backtest_single_model (g : SMESFitted → Nat → Rat) (m : Model) (data : Series)
    (train_size : Rat) (forecast_horizon : Int) : BTResult :=
  let train_data := (btSplit data train_size).1
  let test_data := (btSplit data train_size).2
  let fh : Int :=
    if (test_data.length : Int) < forecast_horizon then (test_data.length : Int)
    else forecast_horizon
  if fh ≤ 0 then ⟨none, none, [], none, none⟩
  else
    match m.fit train_data with
    | .error e => ⟨none, none, [], none, some e⟩
    | .ok f =>
      match Model.predict g f fh.toNat with
      | .error e => ⟨none, none, [], none, some e⟩
      | .ok predictions =>
        let actual_values := test_data.take fh.toNat
        let metrics := calculate_metrics
          (actual_values.map (fun p => (p.1, some p.2)))
          (predictions.map (fun p => (p.1, some p.2)))
        ⟨metrics.1, metrics.2, predictions.map Prod.snd,
          some (actual_values.map Prod.snd), none⟩

/-- Backtester.backtest_all_models: run backtest_single_model for every
model of the roster, keyed by model name.  The per-model try/except of the
source can never fire because backtest_single_model already catches every
model failure, so the map is exact. -/
def backtest_all_models (g : SMESFitted → Nat → Rat) (models : List Model)
    (data : Series) (train_size : Rat) (forecast_horizon : Int) :
    List (String × BTResult) :=
  models.map (fun m => (m.name, backtest_single_model g m data train_size forecast_horizon))

/-- One folding step of Backtester.select_best_model: skip entries carrying
an error key, and replace the running best exactly when the entry MAE is
strictly below the best MAE. -/
def selStep (acc : Option String × EScore × BTResult) (p : String × BTResult) :
    Option String × EScore × BTResult :=
  if p.2.error.isSome then acc
  else if escLt p.2.mae acc.2.1 then (some p.1, p.2.mae, p.2) else acc

/-- Backtester.select_best_model: iterate over the results mapping with
best_mae starting at infinity; if no best was found, fall back to the first
entry of the mapping, raising IndexError on an empty mapping. -/
def select_best_model (results : List (String × BTResult)) :
    Except String (String × BTResult) :=
  match results.foldl selStep (none, none, ⟨none, none, [], none, none⟩) with
  | (some name, _, res) => .ok (name, res)
  | (none, _, _) =>
    match results with
    | [] => .error "list index out of range"
    | p :: _ => .ok p

/-- A hyperparameter value of the grid: a Python int, string, or None. -/
inductive PVal where
  | int (n : Int)
  | str (s : String)
  | null
deriving DecidableEq, Repr

/-- One parameter assignment: a Python dict in insertion order. -/
abbrev Params := List (String × PVal)

/-- The static parameter grids of GridSearchOptimizer, in declaration
order. -/
def param_grids : List (String × List (String × List PVal)) :=
  [("Moving Average",
      [("window", [.int 3, .int 5, .int 7, .int 14, .int 30])]),
   ("Exponential Smoothing",
      [("trend", [.str "add", .str "mul", .null]),
       ("seasonal", [.null, .str "add", .str "mul"]),
       ("seasonal_periods", [.null, .int 7, .int 12, .int 30])]),
   ("Naive", []),
   ("Seasonal Naive",
      [("seasonal_period", [.int 3, .int 5, .int 7, .int 12, .int 30])])]

/-- itertools.product over a list of candidate lists, rightmost factor
varying fastest. -/
def cartProd {α : Type} : List (List α) → List (List α)
  | [] => [[]]
  | l :: ls => l.flatMap (fun x => (cartProd ls).map (fun c => x :: c))

/-- GridSearchOptimizer.generate_param_combinations: an unknown family or an
empty grid yields the single empty assignment; otherwise each candidate list
is first passed through the source filter keeping v when v is not None or
the list has length one (a condition the source states with a duplicated
disjunct), and the Cartesian product of the filtered lists is zipped with
the key list. -/
def generate_param_combinations (model_name : String) : List Params :=
  match lookupFst model_name param_grids with
  | none => [[]]
  | some param_grid =>
    if param_grid.isEmpty then [[]]
    else
      let keys := param_grid.map Prod.fst
      let values := param_grid.map Prod.snd
      let processed_values := values.map (fun val_list =>
        val_list.filter (fun v =>
          !(v == PVal.null) || val_list.length == 1 || !(v == PVal.null)))
      (cartProd processed_values).map (fun c => keys.zip c)

/-- params.get for an integer-valued hyperparameter with a default; the
grids only ever store integers under integer keys. -/
def pvGetInt (params : Params) (key : String) (dflt : Int) : Int :=
  match lookupFst key params with
  | some (.int n) => n
  | _ => dflt

/-- params.get with default None for a string-or-None hyperparameter; a
stored None maps to the empty option. -/
def pvGetStrOpt (params : Params) (key : String) : Option String :=
  match lookupFst key params with
  | some (.str s) => some s
  | _ => none

/-- params.get with default None for an int-or-None hyperparameter. -/
def pvGetNatOpt (params : Params) (key : String) : Option Nat :=
  match lookupFst key params with
  | some (.int n) => some n.toNat
  | _ => none

/-- GridSearchOptimizer.create_model_with_params: dispatch on the family
name, substituting documented defaults for absent hyperparameters, and raise
ValueError on an unknown family. -/
def create_model_with_params (model_name : String) (params : Params) :
    Except String Model :=
  if model_name = "Moving Average" then
    .ok (.movingAverage (pvGetInt params "window" 7).toNat)
  else if model_name = "Exponential Smoothing" then
    .ok (.expSmooth (pvGetStrOpt params "trend") (pvGetStrOpt params "seasonal")
      (pvGetNatOpt params "seasonal_periods"))
  else if model_name = "Naive" then .ok .naive
  else if model_name = "Seasonal Naive" then
    .ok (.seasonalNaive (pvGetInt params "seasonal_period" 7).toNat)
  else .error ("Unknown model: " ++ model_name)

/-- GridSearchOptimizer.grid_search: enumerate the parameter combinations in
order, skip any combination whose model construction raises, backtest the
rest, and keep the first combination attaining the strictly lowest MAE,
starting from the empty assignment with infinite MAE. -/
def grid_search (g : SMESFitted → Nat → Rat) (data : Series) (model_name : String)
    (train_size : Rat) (forecast_horizon : Int) : Params × EScore :=
  (generate_param_combinations model_name).foldl
    (fun best params =>
      match create_model_with_params model_name params with
      | .error _ => best
      | .ok m =>
        let results := backtest_single_model g m data train_size forecast_horizon
        if escLt results.mae best.2 then (params, results.mae) else best)
    ([], none)

/-! ### Generic lemmas about the embedding -/

theorem forecastSeries_map_fst (last : Date) (steps : Nat) (v : Nat → Rat) :
    (forecastSeries last steps v).map Prod.fst = forecastDates last steps := by
  simp only [forecastSeries, forecastDates, List.map_map]
  rfl

theorem forecastSeries_length (last : Date) (steps : Nat) (v : Nat → Rat) :
    (forecastSeries last steps v).length = steps := by
  simp only [forecastSeries, List.length_map, List.length_range]

theorem forecastDates_length (last : Date) (steps : Nat) :
    (forecastDates last steps).length = steps := by
  simp only [forecastDates, List.length_map, List.length_range]

theorem lastDate_eq_of_getLast? {data : Series} {q : Date × Rat}
    (h : data.getLast? = some q) : lastDate data = q.1 := by
  unfold lastDate
  rw [List.getLastD_eq_getLast?, List.getLast?_map, h]
  rfl

theorem mapExcept_ok {α β : Type} (f : α → Except String β) (gf : α → β)
    (l : List α) (h : ∀ a ∈ l, f a = .ok (gf a)) :
    mapExcept f l = .ok (l.map gf) := by
  induction l with
  | nil => rfl
  | cons a l ih =>
    simp only [mapExcept, h a (List.mem_cons_self a l),
      ih (fun b hb => h b (List.mem_cons_of_mem a hb)), Except.map, List.map_cons]

theorem pyIloc_neg_ok (l : List Rat) (p r : Nat) (hp : 0 < p) (hr : r < p)
    (hpl : p ≤ l.length) :
    pyIloc l (-(p : Int) + (r : Int)) = .ok (l.getD (l.length - p + r) 0) := by
  have hidx : pyIdx l.length (-(p : Int) + (r : Int)) = ((l.length - p + r : Nat) : Int) := by
    unfold pyIdx
    rw [if_pos (by omega : -(p : Int) + (r : Int) < 0)]
    omega
  unfold pyIloc
  rw [dif_pos (by rw [hidx]; constructor <;> omega)]
  congr 1
  have hlt : l.length - p + r < l.length := by omega
  rw [List.getD_eq_get? l, List.get?_eq_get hlt]
  simp only [Option.getD_some]
  congr 1
  simp only [Fin.mk.injEq]
  omega

/-- Evaluated form of the Seasonal Naive predict method when the period is
positive and no larger than the training length: the zip of the daily
forecast dates with the cyclic lookback values. -/
theorem seasonal_predict_eq (g : SMESFitted → Nat → Rat) (p : Nat) (data : Series)
    (steps : Nat) (hp : 0 < p) (hlen : p ≤ data.length) (q : Date × Rat)
    (hq : data.getLast? = some q) :
    Model.predict g (.seasonal p data) steps
      = .ok ((forecastDates q.1 steps).zip
          ((List.range steps).map
            (fun (j : Nat) =>
              (data.map Prod.snd).getD ((data.map Prod.snd).length - p + j % p) 0))) := by
  have hmap : mapExcept (fun (j : Nat) =>
      if p = 0 then .error "integer modulo by zero"
      else pyIloc (data.map Prod.snd) (-(p : Int) + ((j % p : Nat) : Int)))
      (List.range steps)
      = .ok ((List.range steps).map
          (fun (j : Nat) =>
            (data.map Prod.snd).getD ((data.map Prod.snd).length - p + j % p) 0)) := by
    apply mapExcept_ok
    intro j _
    rw [if_neg (by omega)]
    exact pyIloc_neg_ok (data.map Prod.snd) p (j % p) hp (Nat.mod_lt _ hp)
      (by rw [List.length_map]; omega)
  simp only [Model.predict, hq, hmap, Except.map]

/-- A nonempty series has a last element. -/
theorem exists_getLast?_of_ne_nil (data : Series) (hne : data ≠ []) :
    ∃ q, data.getLast? = some q := by
  cases hgl : data.getLast? with
  | none =>
    rw [List.getLast?_eq_none_iff] at hgl
    exact absurd hgl hne
  | some q => exact ⟨q, rfl⟩

/-- Python int() agrees with the floor on nonnegative rationals. -/
theorem pyInt_eq_floor (q : Rat) (hq : 0 ≤ q) : pyInt q = Int.floor q := by
  unfold pyInt
  rw [Rat.floor_def]
  exact Int.tdiv_eq_ediv (Rat.num_nonneg.mpr hq) (by positivity)

/-- Reading the last element with index -1 succeeds on a nonempty list. -/
theorem pyIloc_last_ok {α : Type} (l : List α) (hne : l ≠ []) :
    ∃ q, pyIloc l (-1) = .ok q := by
  have hlen : 0 < l.length := List.length_pos.mpr hne
  have hidx : pyIdx l.length (-1) = ((l.length - 1 : Nat) : Int) := by
    unfold pyIdx
    rw [if_pos (by omega : (-1 : Int) < 0)]
    omega
  unfold pyIloc
  rw [dif_pos (by rw [hidx]; constructor <;> omega)]
  exact ⟨_, rfl⟩

/-! ### Claim C2: parameter combinations -/

/-- Claim C2.  The claim states that generate_param_combinations returns the
full Cartesian product of the declared candidate lists including the null
sentinels, so that Exponential Smoothing yields 3 * 3 * 4 = 36 combinations.
The source filter drops the null sentinel from every candidate list of
length greater than one, so Exponential Smoothing yields only 2 * 2 * 3 = 12
combinations, none of which contains a null; Naive still yields exactly the
single empty assignment and Moving Average exactly its 5 window values. -/
theorem c2_combination_counts :
    (generate_param_combinations "Exponential Smoothing").length = 12 ∧
    (generate_param_combinations "Exponential Smoothing").all
      (fun c => c.all (fun kv => !(kv.2 == PVal.null))) = true ∧
    generate_param_combinations "Naive" = [[]] ∧
    (generate_param_combinations "Moving Average").length = 5 ∧
    (generate_param_combinations "Moving Average").map (fun c => c.map Prod.snd)
      = [[.int 3], [.int 5], [.int 7], [.int 14], [.int 30]] := by
  decide

/-! ### Claim C3: fitting on an empty series -/

/-- Claim C3 counterexample.  The claim states that every model variant
raises when fit on an empty series; but SeasonalNaiveModel.fit and
MovingAverageModel.fit merely store the data and succeed on the empty
series, leaving the model marked fitted. -/
theorem c3_counterexample :
    exOk (Model.fit (.seasonalNaive 7) []) = true ∧
    exOk (Model.fit (.movingAverage 7) []) = true := by
  decide

/-- Claim C3 amended.  Fit on an empty series raises for the Naive variant
(the read of the last element), the Linear Regression variant (sklearn
rejects zero samples) and the Exponential Smoothing variant (statsmodels
rejects an empty endog in both the configured fit and the fallback fit), but
the Seasonal Naive and Moving Average variants fit an empty series without
signalling an error. -/
theorem c3_amended_empty_fit :
    (∀ sp : Nat, exOk (Model.fit (.seasonalNaive sp) []) = true) ∧
    (∀ w : Nat, exOk (Model.fit (.movingAverage w) []) = true) ∧
    exOk (Model.fit .naive []) = false ∧
    exOk (Model.fit .linearRegression []) = false ∧
    (∀ (t s : Option String) (sp : Option Nat),
      exOk (Model.fit (.expSmooth t s sp) []) = false) := by
  refine ⟨fun sp => rfl, fun w => rfl, rfl, rfl, fun t s sp => ?_⟩
  simp [Model.fit, smESFit, exOk, Except.map]

/-! ### Claim C8: exponential smoothing fallback -/

/-- Claim C8 counterexample.  The claim states that for every training
series, when the configured exponential smoothing fit raises, fit does not
propagate the error and leaves the model fitted.  On the empty series the
configured fit raises, the fallback fit raises as well, and
ExponentialSmoothingModel.fit propagates the error. -/
theorem c8_counterexample :
    exOk (smESFit [] (some "add") none none) = false ∧
    exOk (Model.fit (.expSmooth (some "add") none none) []) = false := by
  decide

/-- Claim C8 amended.  When fitting the configured exponential smoothing
model raises on a nonempty training series, fit does not propagate the
error: it falls back to fitting a model with no trend and no seasonal
component and leaves the model in fitted state.  When the fallback fit
itself raises, which happens exactly on the empty series, the error does
propagate. -/
theorem c8_amended_fallback (t s : Option String) (sp : Option Nat) (data : Series)
    (hfail : exOk (smESFit data t s sp) = false) (hne : data ≠ []) :
    Model.fit (.expSmooth t s sp) data = .ok (.es ⟨data, none, none, none⟩) := by
  have hplain : smESFit data none none none = .ok ⟨data, none, none, none⟩ := by
    simp [smESFit, List.isEmpty_iff, hne]
  cases h2 : smESFit data t s sp with
  | ok f => rw [h2] at hfail; simp [exOk] at hfail
  | error e => simp [Model.fit, h2, hplain, Except.map]

/-- Claim C8 witness: with an additive seasonal component of period 7 and
only three observations, the configured statsmodels fit raises and
ExponentialSmoothingModel.fit falls back to the plain fit. -/
theorem c8_amended_fallback_witness :
    Model.fit (.expSmooth (some "add") (some "add") (some 7))
        [((0 : Int), (1 : Rat)), (1, 2), (2, 3)]
      = .ok (.es ⟨[((0 : Int), (1 : Rat)), (1, 2), (2, 3)], none, none, none⟩) :=
  c8_amended_fallback (some "add") (some "add") (some 7)
    [((0 : Int), (1 : Rat)), (1, 2), (2, 3)] (by decide) (by decide)

/-! ### Claim C5: the seasonal naive forecast formula -/

/-- Claim C5.  For the Seasonal Naive model fitted with period p on a
training series of length at least p, the forecast value at 0-indexed step i
equals the training value at position len - p + (i mod p), for every step
below the requested horizon. -/
theorem c5_seasonal_lookback (g : SMESFitted → Nat → Rat) (p : Nat) (data : Series)
    (fobj : Fitted) (steps i : Nat) (hp : 0 < p) (hlen : p ≤ data.length)
    (hfit : Model.fit (.seasonalNaive p) data = .ok fobj) (hi : i < steps) :
    ∃ out, Model.predict g fobj steps = .ok out ∧
      (out.map Prod.snd).getD i 0 = (data.map Prod.snd).getD (data.length - p + i % p) 0 := by
  have hobj : fobj = .seasonal p data := by
    simp only [Model.fit] at hfit
    injection hfit with h
    exact h.symm
  subst hobj
  obtain ⟨q, hq⟩ := exists_getLast?_of_ne_nil data
    (by intro h; subst h; simp at hlen; omega)
  have hvlen : (data.map Prod.snd).length = data.length := List.length_map _ _
  have hmod : i % p < p := Nat.mod_lt _ hp
  refine ⟨(forecastDates q.1 steps).zip
      ((List.range steps).map
        (fun (j : Nat) => (data.map Prod.snd).getD ((data.map Prod.snd).length - p + j % p) 0)), ?_, ?_⟩
  · exact seasonal_predict_eq g p data steps hp hlen q hq
  · rw [List.map_snd_zip _ _ (by rw [forecastDates_length]; simp)]
    rw [List.getD_eq_get? _, List.getD_eq_get? _]
    rw [List.get?_eq_get (by simp [hi]), List.get?_eq_get (by omega)]
    simp only [Option.getD_some, List.get_map]
    rw [List.getD_eq_get? _, List.get?_eq_get (by simp; omega)]
    simp only [Option.getD_some, List.get_map, List.get_range]
    congr 2
    simp only [Fin.mk.injEq, List.get_range]
    omega

/-- Claim C5 witness: period 3 on a training series of length 4, step 1 of a
2-step forecast reads position 4 - 3 + (1 mod 3) = 2 of the training
series. -/
theorem c5_seasonal_lookback_witness :
    ∃ out, Model.predict (fun _ _ => 0)
        (.seasonal 3 [((0 : Int), (1 : Rat)), (1, 2), (2, 3), (3, 4)]) 2 = .ok out ∧
      (out.map Prod.snd).getD 1 0
        = (([((0 : Int), (1 : Rat)), (1, 2), (2, 3), (3, 4)] : Series).map Prod.snd).getD
            (([((0 : Int), (1 : Rat)), (1, 2), (2, 3), (3, 4)] : Series).length - 3 + 1 % 3) 0 :=
  c5_seasonal_lookback (fun _ _ => 0) 3 [((0 : Int), (1 : Rat)), (1, 2), (2, 3), (3, 4)]
    (.seasonal 3 [((0 : Int), (1 : Rat)), (1, 2), (2, 3), (3, 4)]) 2 1
    (by decide) (by decide) rfl (by decide)

/-! ### Claim C4: shape and index of the forecast output -/

/-- A successful statsmodels fit keeps the training data, and only succeeds
on a nonempty series. -/
theorem smESFit_ok_inv {data : Series} {t s : Option String} {sp : Option Nat}
    {sf : SMESFitted} (h : smESFit data t s sp = .ok sf) :
    sf.data = data ∧ data ≠ [] := by
  unfold smESFit at h
  split_ifs at h with h1 h2 h3
  all_goals
    first
      | exact Except.noConfusion h
      | (injection h with h4
         exact ⟨by rw [← h4], fun hd => by subst hd; exact h1 rfl⟩)

/-- A successful ExponentialSmoothingModel.fit yields a statsmodels state
holding the training data, which is nonempty. -/
theorem esFit_ok_inv {data : Series} {t s : Option String} {sp : Option Nat}
    {f : Fitted} (h : Model.fit (.expSmooth t s sp) data = .ok f) :
    ∃ sf, f = .es sf ∧ sf.data = data ∧ data ≠ [] := by
  simp only [Model.fit] at h
  cases h1 : smESFit data t s sp with
  | ok sf =>
    rw [h1] at h
    injection h with h2
    exact ⟨sf, h2.symm, smESFit_ok_inv h1⟩
  | error e =>
    rw [h1] at h
    cases h2 : smESFit data none none none with
    | ok sf =>
      rw [h2] at h
      simp only [Except.map] at h
      injection h with h3
      exact ⟨sf, h3.symm, smESFit_ok_inv h2⟩
    | error e2 => rw [h2] at h; simp [Except.map] at h

/-- Claim C4 counterexample.  The claim states that for every model variant
and every nonempty training series, predict after a successful fit returns
exactly the requested number of values.  Seasonal Naive with its default
period 7 fits a 3-point series successfully, yet predict raises on the
out-of-range lookback position -7. -/
theorem c4_counterexample :
    Model.fit (.seasonalNaive 7) [((0 : Int), (1 : Rat)), (1, 2), (2, 3)]
      = .ok (.seasonal 7 [((0 : Int), (1 : Rat)), (1, 2), (2, 3)]) ∧
    exOk (Model.predict (fun _ _ => 0)
      (.seasonal 7 [((0 : Int), (1 : Rat)), (1, 2), (2, 3)]) 1) = false := by
  decide

/-- Claim C4 amended.  After a successful fit, predict returns a series of
exactly steps values indexed by the strictly increasing contiguous daily
timestamps starting one day after the last training timestamp, for: the
Naive variant on every training series its fit accepts; the Moving Average
variant on every nonempty training series; the Linear Regression variant on
every training series its fit accepts; the Seasonal Naive variant provided
the period is positive and no larger than the training length (otherwise
predict raises); and the Exponential Smoothing variant on every daily
contiguous training series its fit accepts, the scope on which the
statsmodels index model is faithful. -/
theorem c4_amended_forecast_shape :
    (∀ (g : SMESFitted → Nat → Rat) (data : Series) (f : Fitted) (steps : Nat),
      Model.fit .naive data = .ok f →
      ∃ out, Model.predict g f steps = .ok out ∧
        out.map Prod.fst = forecastDates (lastDate data) steps ∧
        out.length = steps) ∧
    (∀ (g : SMESFitted → Nat → Rat) (w : Nat) (data : Series) (f : Fitted) (steps : Nat),
      data ≠ [] → Model.fit (.movingAverage w) data = .ok f →
      ∃ out, Model.predict g f steps = .ok out ∧
        out.map Prod.fst = forecastDates (lastDate data) steps ∧
        out.length = steps) ∧
    (∀ (g : SMESFitted → Nat → Rat) (data : Series) (f : Fitted) (steps : Nat),
      Model.fit .linearRegression data = .ok f →
      ∃ out, Model.predict g f steps = .ok out ∧
        out.map Prod.fst = forecastDates (lastDate data) steps ∧
        out.length = steps) ∧
    (∀ (g : SMESFitted → Nat → Rat) (p : Nat) (data : Series) (f : Fitted) (steps : Nat),
      0 < p → p ≤ data.length → Model.fit (.seasonalNaive p) data = .ok f →
      ∃ out, Model.predict g f steps = .ok out ∧
        out.map Prod.fst = forecastDates (lastDate data) steps ∧
        out.length = steps) ∧
    (∀ (g : SMESFitted → Nat → Rat) (t s : Option String) (sp : Option Nat)
        (data : Series) (f : Fitted) (steps : Nat),
      dailyContiguous data = true → Model.fit (.expSmooth t s sp) data = .ok f →
      ∃ out, Model.predict g f steps = .ok out ∧
        out.map Prod.fst = forecastDates (lastDate data) steps ∧
        out.length = steps) := by
  refine ⟨?_, ?_, ?_, ?_, ?_⟩
  · intro g data f steps hfit
    simp only [Model.fit] at hfit
    cases hpi : pyIloc data (-1) with
    | error e => rw [hpi] at hfit; simp [Except.map] at hfit
    | ok q2 =>
      rw [hpi] at hfit
      simp only [Except.map] at hfit
      injection hfit with h2
      subst h2
      have hne : data ≠ [] := by
        intro hd
        subst hd
        simp [pyIloc, pyIdx] at hpi
      obtain ⟨q, hq⟩ := exists_getLast?_of_ne_nil _ hne
      simp only [Model.predict, hq]
      refine ⟨_, rfl, ?_, ?_⟩
      · rw [forecastSeries_map_fst, lastDate_eq_of_getLast? hq]
      · exact forecastSeries_length _ _ _
  · intro g w data f steps hne hfit
    simp only [Model.fit] at hfit
    injection hfit with h2
    subst h2
    obtain ⟨q, hq⟩ := exists_getLast?_of_ne_nil _ hne
    simp only [Model.predict, hq]
    refine ⟨_, rfl, ?_, ?_⟩
    · rw [forecastSeries_map_fst, lastDate_eq_of_getLast? hq]
    · exact forecastSeries_length _ _ _
  · intro g data f steps hfit
    simp only [Model.fit] at hfit
    by_cases h0 : data.length = 0
    · rw [if_pos h0] at hfit
      exact Except.noConfusion hfit
    rw [if_neg h0] at hfit
    injection hfit with h2
    subst h2
    have hne : data ≠ [] := by
      intro hd
      subst hd
      exact h0 rfl
    obtain ⟨q, hq⟩ := exists_getLast?_of_ne_nil _ hne
    simp only [Model.predict, hq]
    refine ⟨_, rfl, ?_, ?_⟩
    · rw [forecastSeries_map_fst, lastDate_eq_of_getLast? hq]
    · exact forecastSeries_length _ _ _
  · intro g p data f steps hp hlen hfit
    simp only [Model.fit] at hfit
    injection hfit with h2
    subst h2
    obtain ⟨q, hq⟩ := exists_getLast?_of_ne_nil data
      (by intro h; subst h; simp at hlen; omega)
    refine ⟨_, seasonal_predict_eq g p data steps hp hlen q hq, ?_, ?_⟩
    · rw [List.map_fst_zip _ _ (by rw [forecastDates_length]; simp),
        lastDate_eq_of_getLast? hq]
    · rw [List.length_zip, forecastDates_length]
      simp
  · intro g t s sp data f steps hdc hfit
    obtain ⟨sf, hf, hsd, hne⟩ := esFit_ok_inv hfit
    subst hf
    simp only [Model.predict]
    refine ⟨_, rfl, ?_, ?_⟩
    · rw [smForecast, forecastSeries_map_fst, hsd]
    · rw [smForecast]
      exact forecastSeries_length _ _ _

/-- Claim C4 witness: every conjunct instantiated on the two-point daily
series with values 1 and 2, requesting a three-step forecast. -/
theorem c4_amended_forecast_shape_witness :
    (∃ out, Model.predict (fun _ _ => 0)
        (.naive 2 [((0 : Int), (1 : Rat)), (1, 2)]) 3 = .ok out ∧
      out.map Prod.fst = forecastDates (lastDate [((0 : Int), (1 : Rat)), (1, 2)]) 3 ∧
      out.length = 3) ∧
    (∃ out, Model.predict (fun _ _ => 0)
        (.ma 7 (olsSlope [1, 2]) [((0 : Int), (1 : Rat)), (1, 2)]) 3 = .ok out ∧
      out.map Prod.fst = forecastDates (lastDate [((0 : Int), (1 : Rat)), (1, 2)]) 3 ∧
      out.length = 3) ∧
    (∃ out, Model.predict (fun _ _ => 0)
        (.linreg (olsSlope [1, 2]) (olsIntercept [1, 2] (olsSlope [1, 2]))
          [((0 : Int), (1 : Rat)), (1, 2)]) 3 = .ok out ∧
      out.map Prod.fst = forecastDates (lastDate [((0 : Int), (1 : Rat)), (1, 2)]) 3 ∧
      out.length = 3) ∧
    (∃ out, Model.predict (fun _ _ => 0)
        (.seasonal 1 [((0 : Int), (1 : Rat)), (1, 2)]) 3 = .ok out ∧
      out.map Prod.fst = forecastDates (lastDate [((0 : Int), (1 : Rat)), (1, 2)]) 3 ∧
      out.length = 3) ∧
    (∃ out, Model.predict (fun _ _ => 0)
        (.es ⟨[((0 : Int), (1 : Rat)), (1, 2)], none, none, none⟩) 3 = .ok out ∧
      out.map Prod.fst = forecastDates (lastDate [((0 : Int), (1 : Rat)), (1, 2)]) 3 ∧
      out.length = 3) :=
  ⟨c4_amended_forecast_shape.1 (fun _ _ => 0) [((0 : Int), (1 : Rat)), (1, 2)]
      (.naive 2 [((0 : Int), (1 : Rat)), (1, 2)]) 3 (by decide),
   c4_amended_forecast_shape.2.1 (fun _ _ => 0) 7 [((0 : Int), (1 : Rat)), (1, 2)]
      (.ma 7 (olsSlope [1, 2]) [((0 : Int), (1 : Rat)), (1, 2)]) 3 (by decide) rfl,
   c4_amended_forecast_shape.2.2.1 (fun _ _ => 0) [((0 : Int), (1 : Rat)), (1, 2)]
      (.linreg (olsSlope [1, 2]) (olsIntercept [1, 2] (olsSlope [1, 2]))
        [((0 : Int), (1 : Rat)), (1, 2)]) 3 rfl,
   c4_amended_forecast_shape.2.2.2.1 (fun _ _ => 0) 1 [((0 : Int), (1 : Rat)), (1, 2)]
      (.seasonal 1 [((0 : Int), (1 : Rat)), (1, 2)]) 3 (by decide) (by decide) (by decide),
   c4_amended_forecast_shape.2.2.2.2 (fun _ _ => 0) none none none
      [((0 : Int), (1 : Rat)), (1, 2)]
      (.es ⟨[((0 : Int), (1 : Rat)), (1, 2)], none, none, none⟩) 3
      (by decide) (by decide)⟩

/-! ### Claim C9: the error-implies-infinite-scores invariant -/

/-- Claim C9.  Every backtest record produced by backtest_single_model or
backtest_all_models satisfies: if its error field is set, then its MAE and
MAPE are the infinite sentinel, so a failed model can never win selection
against any successfully scored model. -/
theorem c9_error_infinite_invariant :
    (∀ (g : SMESFitted → Nat → Rat) (m : Model) (data : Series) (ts : Rat) (fh : Int),
      (backtest_single_model g m data ts fh).error.isSome = true →
      (backtest_single_model g m data ts fh).mae = none ∧
      (backtest_single_model g m data ts fh).mape = none) ∧
    (∀ (g : SMESFitted → Nat → Rat) (models : List Model) (data : Series)
        (ts : Rat) (fh : Int) (r : String × BTResult),
      r ∈ backtest_all_models g models data ts fh →
      r.2.error.isSome = true → r.2.mae = none ∧ r.2.mape = none) := by
  have key : ∀ (g : SMESFitted → Nat → Rat) (m : Model) (data : Series) (ts : Rat) (fh : Int),
      (backtest_single_model g m data ts fh).error.isSome = true →
      (backtest_single_model g m data ts fh).mae = none ∧
      (backtest_single_model g m data ts fh).mape = none := by
    intro g m data ts fh
    simp only [backtest_single_model]
    repeat' split
    all_goals intro h
    all_goals
      first
        | exact ⟨rfl, rfl⟩
        | simp at h
  refine ⟨key, ?_⟩
  intro g models data ts fh r hr herr
  simp only [backtest_all_models, List.mem_map] at hr
  obtain ⟨m, hm, rfl⟩ := hr
  exact key g m data ts fh herr

/-- Claim C9 witness: backtesting the Naive model with train share 0 leaves
an empty training series, so the fit raises and the record carries an error
with infinite MAE and MAPE; the same record, keyed by name, is the sole
entry of backtest_all_models on the one-model roster. -/
theorem c9_error_infinite_invariant_witness :
    ((backtest_single_model (fun _ _ => 0) .naive [((0 : Int), (1 : Rat))] 0 1).error.isSome = true) ∧
    ((backtest_single_model (fun _ _ => 0) .naive [((0 : Int), (1 : Rat))] 0 1).mae = none ∧
      (backtest_single_model (fun _ _ => 0) .naive [((0 : Int), (1 : Rat))] 0 1).mape = none) ∧
    (("Naive", backtest_single_model (fun _ _ => 0) .naive [((0 : Int), (1 : Rat))] 0 1)
        ∈ backtest_all_models (fun _ _ => 0) [.naive] [((0 : Int), (1 : Rat))] 0 1) ∧
    ((("Naive", backtest_single_model (fun _ _ => 0) .naive [((0 : Int), (1 : Rat))] 0 1).2.mae = none) ∧
      (("Naive", backtest_single_model (fun _ _ => 0) .naive [((0 : Int), (1 : Rat))] 0 1).2.mape = none)) := by
  have herr : (backtest_single_model (fun _ _ => 0) .naive
      [((0 : Int), (1 : Rat))] 0 1).error.isSome = true := by
    norm_num [backtest_single_model, btSplit, pyInt, pyTake, pyDrop, Model.fit,
      pyIloc, pyIdx, Except.map]
  have hmem : ("Naive", backtest_single_model (fun _ _ => 0) .naive [((0 : Int), (1 : Rat))] 0 1)
      ∈ backtest_all_models (fun _ _ => 0) [.naive] [((0 : Int), (1 : Rat))] 0 1 := by
    simp [backtest_all_models, Model.name]
  exact ⟨herr,
    c9_error_infinite_invariant.1 (fun _ _ => 0) .naive [((0 : Int), (1 : Rat))] 0 1 herr,
    hmem,
    c9_error_infinite_invariant.2 (fun _ _ => 0) [.naive] [((0 : Int), (1 : Rat))] 0 1
      ("Naive", backtest_single_model (fun _ _ => 0) .naive [((0 : Int), (1 : Rat))] 0 1)
      hmem herr⟩

/-! ### Claim C6: train/test split and horizon handling -/

/-- Claim C6.  backtest_single_model splits the series at index
floor(len * train_size) preserving time order (train and test concatenate
back to the series); when the test portion is shorter than the horizon it
shrinks the horizon to the test length and the backtest completes with that
many predictions (shown by the equality with the shrunken call, and by the
Naive model producing exactly test-length predictions with no error); and
when the resulting horizon is nonpositive it returns MAE = MAPE = infinity
with an empty prediction list without attempting to fit, uniformly in the
model. -/
theorem c6_split_and_horizon :
    (∀ (data : Series) (ts : Rat), 0 ≤ ts →
      btSplit data ts
        = (data.take (Int.floor ((data.length : Rat) * ts)).toNat,
           data.drop (Int.floor ((data.length : Rat) * ts)).toNat) ∧
      (btSplit data ts).1 ++ (btSplit data ts).2 = data) ∧
    (∀ (g : SMESFitted → Nat → Rat) (m : Model) (data : Series) (ts : Rat) (fh : Int),
      (((btSplit data ts).2.length : Int) < fh) →
      backtest_single_model g m data ts fh
        = backtest_single_model g m data ts ((btSplit data ts).2.length : Int)) ∧
    (∀ (g : SMESFitted → Nat → Rat) (data : Series) (ts : Rat) (fh : Int),
      (btSplit data ts).1 ≠ [] → 0 < (btSplit data ts).2.length →
      (((btSplit data ts).2.length : Int) < fh) →
      (backtest_single_model g .naive data ts fh).predictions.length
          = (btSplit data ts).2.length ∧
      (backtest_single_model g .naive data ts fh).error = none) ∧
    (∀ (g : SMESFitted → Nat → Rat) (m : Model) (data : Series) (ts : Rat) (fh : Int),
      (if ((btSplit data ts).2.length : Int) < fh
        then ((btSplit data ts).2.length : Int) else fh) ≤ 0 →
      backtest_single_model g m data ts fh = ⟨none, none, [], none, none⟩) := by
  refine ⟨?_, ?_, ?_, ?_⟩
  · intro data ts hts
    have hnn : (0 : Rat) ≤ (data.length : Rat) * ts :=
      mul_nonneg (by positivity) hts
    constructor
    · simp only [btSplit, pyInt_eq_floor _ hnn, pyTake, pyDrop,
        if_pos (Int.floor_nonneg.mpr hnn)]
    · simp only [btSplit, pyTake, pyDrop]
      split_ifs with h
      · exact List.take_append_drop _ _
      · exact List.take_append_drop _ _
  · intro g m data ts fh hshort
    simp only [backtest_single_model]
    rw [if_pos hshort, if_neg (lt_irrefl _)]
  · intro g data ts fh htrain htest hshort
    have h2 : ¬ (((btSplit data ts).2.length : Int) ≤ 0) := by
      intro hc
      omega
    simp only [backtest_single_model]
    rw [if_pos hshort, if_neg h2]
    obtain ⟨q, hq⟩ := pyIloc_last_ok (btSplit data ts).1 htrain
    simp only [Model.fit, hq, Except.map]
    obtain ⟨q2, hq2⟩ := exists_getLast?_of_ne_nil _ htrain
    simp only [Model.predict, hq2]
    constructor
    · simp [forecastSeries]
    · trivial
  · intro g m data ts fh hnp
    simp only [backtest_single_model]
    rw [if_pos hnp]

/-- Claim C6 witness: a five-point daily series with train share 4/5 leaves
one test point; a requested horizon of 7 shrinks to 1 and the Naive backtest
completes with one prediction and no error, while a requested horizon of 0
returns the infinite-score record immediately. -/
theorem c6_split_and_horizon_witness :
    (btSplit [((0 : Int), (1 : Rat)), (1, 2), (2, 3), (3, 4), (4, 5)] (4/5)
        = ([((0 : Int), (1 : Rat)), (1, 2), (2, 3), (3, 4), (4, 5)].take
             (Int.floor ((([((0 : Int), (1 : Rat)), (1, 2), (2, 3), (3, 4), (4, 5)] : Series).length : Rat) * (4/5))).toNat,
           [((0 : Int), (1 : Rat)), (1, 2), (2, 3), (3, 4), (4, 5)].drop
             (Int.floor ((([((0 : Int), (1 : Rat)), (1, 2), (2, 3), (3, 4), (4, 5)] : Series).length : Rat) * (4/5))).toNat) ∧
      (btSplit [((0 : Int), (1 : Rat)), (1, 2), (2, 3), (3, 4), (4, 5)] (4/5)).1
          ++ (btSplit [((0 : Int), (1 : Rat)), (1, 2), (2, 3), (3, 4), (4, 5)] (4/5)).2
        = [((0 : Int), (1 : Rat)), (1, 2), (2, 3), (3, 4), (4, 5)]) ∧
    (backtest_single_model (fun _ _ => 0) .naive
        [((0 : Int), (1 : Rat)), (1, 2), (2, 3), (3, 4), (4, 5)] (4/5) 7
      = backtest_single_model (fun _ _ => 0) .naive
        [((0 : Int), (1 : Rat)), (1, 2), (2, 3), (3, 4), (4, 5)] (4/5)
        ((btSplit [((0 : Int), (1 : Rat)), (1, 2), (2, 3), (3, 4), (4, 5)] (4/5)).2.length : Int)) ∧
    ((backtest_single_model (fun _ _ => 0) .naive
        [((0 : Int), (1 : Rat)), (1, 2), (2, 3), (3, 4), (4, 5)] (4/5) 7).predictions.length
        = (btSplit [((0 : Int), (1 : Rat)), (1, 2), (2, 3), (3, 4), (4, 5)] (4/5)).2.length ∧
      (backtest_single_model (fun _ _ => 0) .naive
        [((0 : Int), (1 : Rat)), (1, 2), (2, 3), (3, 4), (4, 5)] (4/5) 7).error = none) ∧
    (backtest_single_model (fun _ _ => 0) .naive
        [((0 : Int), (1 : Rat)), (1, 2), (2, 3), (3, 4), (4, 5)] (4/5) 0
      = ⟨none, none, [], none, none⟩) := by
  have hsplit : btSplit [((0 : Int), (1 : Rat)), (1, 2), (2, 3), (3, 4), (4, 5)] (4/5)
      = ([((0 : Int), (1 : Rat)), (1, 2), (2, 3), (3, 4)], [((4 : Int), (5 : Rat))]) := by
    have h4 : ((([((0 : Int), (1 : Rat)), (1, 2), (2, 3), (3, 4), (4, 5)] : Series).length : Rat)
        * (4/5)) = 4 := by norm_num
    simp only [btSplit, h4]
    norm_num [pyInt, pyTake, pyDrop]
    exact ⟨rfl, rfl⟩
  exact ⟨c6_split_and_horizon.1
      [((0 : Int), (1 : Rat)), (1, 2), (2, 3), (3, 4), (4, 5)] (4/5) (by norm_num),
    c6_split_and_horizon.2.1 (fun _ _ => 0) .naive
      [((0 : Int), (1 : Rat)), (1, 2), (2, 3), (3, 4), (4, 5)] (4/5) 7
      (by rw [hsplit]; decide),
    c6_split_and_horizon.2.2.1 (fun _ _ => 0)
      [((0 : Int), (1 : Rat)), (1, 2), (2, 3), (3, 4), (4, 5)] (4/5) 7
      (by rw [hsplit]; decide) (by rw [hsplit]; decide) (by rw [hsplit]; decide),
    c6_split_and_horizon.2.2.2 (fun _ _ => 0) .naive
      [((0 : Int), (1 : Rat)), (1, 2), (2, 3), (3, 4), (4, 5)] (4/5) 0
      (by rw [hsplit]; decide)⟩

/-! ### Claim C10: grid search on an unknown model family -/

/-- Claim C10.  For every series and every family name outside the declared
grids, generate_param_combinations yields the single empty combination, the
construction of a model for the unknown family raises ValueError, and
grid_search catches that error inside its loop, skips the combination, and
returns the empty parameter set with infinite MAE without raising. -/
theorem c10_unknown_family (g : SMESFitted → Nat → Rat) (data : Series)
    (ts : Rat) (fh : Int) (name : String)
    (hname : lookupFst name param_grids = none) :
    generate_param_combinations name = [[]] ∧
    exOk (create_model_with_params name []) = false ∧
    grid_search g data name ts fh = ([], none) := by
  have hnames : ¬(name = "Moving Average") ∧ ¬(name = "Exponential Smoothing")
      ∧ ¬(name = "Naive") ∧ ¬(name = "Seasonal Naive") := by
    simp only [param_grids, lookupFst] at hname
    split_ifs at hname with h1 h2 h3 h4
    all_goals
      first
        | exact Option.noConfusion hname
        | exact ⟨fun h => h1 h.symm, fun h => h2 h.symm, fun h => h3 h.symm,
            fun h => h4 h.symm⟩
  have hcreate : create_model_with_params name [] = .error ("Unknown model: " ++ name) := by
    unfold create_model_with_params
    rw [if_neg hnames.1, if_neg hnames.2.1, if_neg hnames.2.2.1, if_neg hnames.2.2.2]
  have hgen : generate_param_combinations name = [[]] := by
    unfold generate_param_combinations
    rw [hname]
  refine ⟨hgen, by rw [hcreate]; rfl, ?_⟩
  unfold grid_search
  rw [hgen]
  simp only [List.foldl, hcreate]

/-- Claim C10 witness: the family name Foo is not a declared grid family. -/
theorem c10_unknown_family_witness :
    generate_param_combinations "Foo" = [[]] ∧
    exOk (create_model_with_params "Foo" []) = false ∧
    grid_search (fun _ _ => 0) [((0 : Int), (1 : Rat)), (1, 2)] "Foo" (8/10) 7
      = ([], none) :=
  c10_unknown_family (fun _ _ => 0) [((0 : Int), (1 : Rat)), (1, 2)] (8/10) 7 "Foo"
    (by decide)

/-! ### Claim C7: metric alignment and epsilon substitution -/

/-- A successful lookup returns a pair of the list. -/
theorem lookupFst_mem {α β : Type} [DecidableEq α] {l : List (α × β)} {k : α} {v : β}
    (h : lookupFst k l = some v) : (k, v) ∈ l := by
  induction l with
  | nil => exact Option.noConfusion h
  | cons p l ih =>
    simp only [lookupFst] at h
    split_ifs at h with hp
    · injection h with h2
      have hpk : p = (k, v) := by
        obtain ⟨p1, p2⟩ := p
        simp only at hp h2
        rw [hp, h2]
      rw [← hpk]
      exact List.mem_cons_self p l
    · exact List.mem_cons_of_mem _ (ih h)

/-- On a list with no duplicate keys, lookup finds the value of any member
pair. -/
theorem lookupFst_of_mem {α β : Type} [DecidableEq α] {l : List (α × β)} {k : α} {v : β}
    (hnd : (l.map Prod.fst).Nodup) (h : (k, v) ∈ l) : lookupFst k l = some v := by
  induction l with
  | nil => exact absurd h (List.not_mem_nil _)
  | cons p l ih =>
    rcases List.mem_cons.mp h with heq | htail
    · rw [← heq]
      simp [lookupFst]
    · have hk : k ∈ l.map Prod.fst :=
        List.mem_map.mpr ⟨(k, v), htail, rfl⟩
      have hne : ¬(p.1 = k) := by
        intro hc
        rw [List.map_cons, List.nodup_cons] at hnd
        exact hnd.1 (hc ▸ hk)
      simp only [lookupFst, if_neg hne]
      exact ih ((List.map_cons _ _ _ ▸ hnd).of_cons) htail

/-- Claim C7.  calculate_metrics aligns the two series keeping exactly the
positions present and non-missing in both (membership in both directions);
with zero aligned points it returns infinite MAE and MAPE without raising;
and when some aligned actual value is exactly zero it does not raise but
substitutes the epsilon 1e-10 for the zero actual values before the MAPE
division, returning finite scores. -/
theorem c7_calculate_metrics :
    (∀ (a p : SeriesN), alignedPairs a p = [] → calculate_metrics a p = (none, none)) ∧
    (∀ (a p : SeriesN) (d : Date) (va vp : Rat),
      (p.map Prod.fst).Nodup → (d, some va) ∈ a → (d, some vp) ∈ p →
      (va, vp) ∈ alignedPairs a p) ∧
    (∀ (a p : SeriesN) (va vp : Rat), (va, vp) ∈ alignedPairs a p →
      ∃ d, (d, some va) ∈ a ∧ (d, some vp) ∈ p) ∧
    (∀ (a p : SeriesN), alignedPairs a p ≠ [] →
      (∃ q ∈ alignedPairs a p, q.1 = 0) →
      (calculate_metrics a p).1 = some (skMAE (alignedPairs a p)) ∧
      (calculate_metrics a p).2
        = some (skMAPE ((alignedPairs a p).map
            (fun q => (if q.1 = 0 then mapeEpsilon else q.1, q.2)))) ∧
      (calculate_metrics a p).2 ≠ none) := by
  refine ⟨?_, ?_, ?_, ?_⟩
  · intro a p h
    unfold calculate_metrics
    rw [h]
    simp
  · intro a p d va vp hnd ha hp
    have hlk : lookupFst d p = some (some vp) := lookupFst_of_mem hnd hp
    unfold alignedPairs
    exact List.mem_filterMap.mpr ⟨(d, some va), ha, by simp only [hlk]⟩
  · intro a p va vp h
    unfold alignedPairs at h
    obtain ⟨⟨d, w⟩, hqa, hf⟩ := List.mem_filterMap.mp h
    cases w with
    | none => exact Option.noConfusion hf
    | some va2 =>
      cases hl : lookupFst d p with
      | none => rw [hl] at hf; exact Option.noConfusion hf
      | some w2 =>
        cases w2 with
        | none => rw [hl] at hf; exact Option.noConfusion hf
        | some vp2 =>
          rw [hl] at hf
          simp only [Option.some.injEq, Prod.mk.injEq] at hf
          obtain ⟨hva, hvp⟩ := hf
          subst hva
          subst hvp
          exact ⟨d, hqa, lookupFst_mem hl⟩
  · intro a p hne hzero
    have hlen : ¬((alignedPairs a p).length = 0) := by
      simpa [List.length_eq_zero] using hne
    have hany : (alignedPairs a p).any (fun q => decide (q.1 = 0)) = true := by
      obtain ⟨q, hq, hq0⟩ := hzero
      exact List.any_eq_true.mpr ⟨q, hq, by simpa using hq0⟩
    unfold calculate_metrics
    rw [if_neg hlen, if_pos hany]
    exact ⟨rfl, rfl, by simp⟩

/-- Claim C7 witness: disjoint-index series align to nothing and score
infinity; on overlapping daily series with a missing value and a zero
actual, the kept pairs are exactly the doubly present, doubly non-missing
positions and the zero actual is epsilon-substituted, yielding finite
scores. -/
theorem c7_calculate_metrics_witness :
    (calculate_metrics [((0 : Int), some (1 : Rat))] [((5 : Int), some (2 : Rat))]
      = (none, none)) ∧
    (((5 : Rat), (4 : Rat)) ∈ alignedPairs
      [((0 : Int), some (0 : Rat)), (1, some 5), (2, none), (3, some 2)]
      [((0 : Int), some (1 : Rat)), (1, some 4), (2, some 3), (9, some 9)]) ∧
    (∃ d, (d, some (0 : Rat)) ∈
        [((0 : Int), some (0 : Rat)), (1, some 5), (2, none), (3, some 2)] ∧
      (d, some (1 : Rat)) ∈
        [((0 : Int), some (1 : Rat)), (1, some 4), (2, some 3), (9, some 9)]) ∧
    ((calculate_metrics
        [((0 : Int), some (0 : Rat)), (1, some 5), (2, none), (3, some 2)]
        [((0 : Int), some (1 : Rat)), (1, some 4), (2, some 3), (9, some 9)]).1
      = some (skMAE (alignedPairs
          [((0 : Int), some (0 : Rat)), (1, some 5), (2, none), (3, some 2)]
          [((0 : Int), some (1 : Rat)), (1, some 4), (2, some 3), (9, some 9)])) ∧
      (calculate_metrics
        [((0 : Int), some (0 : Rat)), (1, some 5), (2, none), (3, some 2)]
        [((0 : Int), some (1 : Rat)), (1, some 4), (2, some 3), (9, some 9)]).2
        = some (skMAPE ((alignedPairs
            [((0 : Int), some (0 : Rat)), (1, some 5), (2, none), (3, some 2)]
            [((0 : Int), some (1 : Rat)), (1, some 4), (2, some 3), (9, some 9)]).map
              (fun q => (if q.1 = 0 then mapeEpsilon else q.1, q.2)))) ∧
      (calculate_metrics
        [((0 : Int), some (0 : Rat)), (1, some 5), (2, none), (3, some 2)]
        [((0 : Int), some (1 : Rat)), (1, some 4), (2, some 3), (9, some 9)]).2 ≠ none) :=
  ⟨c7_calculate_metrics.1 [((0 : Int), some (1 : Rat))] [((5 : Int), some (2 : Rat))]
      (by decide),
   c7_calculate_metrics.2.1
      [((0 : Int), some (0 : Rat)), (1, some 5), (2, none), (3, some 2)]
      [((0 : Int), some (1 : Rat)), (1, some 4), (2, some 3), (9, some 9)]
      1 5 4 (by decide) (by decide) (by decide),
   c7_calculate_metrics.2.2.1
      [((0 : Int), some (0 : Rat)), (1, some 5), (2, none), (3, some 2)]
      [((0 : Int), some (1 : Rat)), (1, some 4), (2, some 3), (9, some 9)]
      0 1 (by decide),
   c7_calculate_metrics.2.2.2
      [((0 : Int), some (0 : Rat)), (1, some 5), (2, none), (3, some 2)]
      [((0 : Int), some (1 : Rat)), (1, some 4), (2, some 3), (9, some 9)]
      (by decide) ⟨(0, 1), by decide, by decide⟩⟩

/-! ### Claim C1: best-model selection -/

/-- An entry without an error field. -/
def errFree (p : String × BTResult) : Bool := p.2.error.isNone

/-- An error-free entry with a finite MAE. -/
def goodFin (p : String × BTResult) : Bool := p.2.error.isNone && p.2.mae.isSome

/-- Keep the strictly better entry, first wins ties. -/
def selCmp (b q : String × BTResult) : String × BTResult :=
  if escLt q.2.mae b.2.mae then q else b

/-- The selection rule exactly as the claim words it: among the entries
without an error field, the first entry attaining the strictly lowest MAE
(a strict comparison never replaces the incumbent, so the first encountered
minimum wins); when every entry has an error, the first entry of the
mapping; IndexError on an empty mapping. -/
def select_best_model_spec (results : List (String × BTResult)) :
    Except String (String × BTResult) :=
  match results, results.filter errFree with
  | [], _ => .error "list index out of range"
  | p :: _, [] => .ok p
  | _ :: _, e :: es => .ok (es.foldl selCmp e)

/-- Running best of the source loop once a best entry exists: skip errored
entries, replace on strictly lower MAE. -/
def pickFrom (b : String × BTResult) : List (String × BTResult) → String × BTResult
  | [] => b
  | p :: l =>
    if p.2.error.isNone && escLt p.2.mae b.2.mae then pickFrom p l else pickFrom b l

theorem sel_foldl_some (l : List (String × BTResult)) :
    ∀ b : String × BTResult,
      l.foldl selStep (some b.1, b.2.mae, b.2)
        = (some (pickFrom b l).1, (pickFrom b l).2.mae, (pickFrom b l).2) := by
  induction l with
  | nil => intro b; rfl
  | cons p l ih =>
    intro b
    cases herr : p.2.error with
    | some e =>
      have hstep : selStep (some b.1, b.2.mae, b.2) p = (some b.1, b.2.mae, b.2) := by
        simp [selStep, herr]
      simp only [List.foldl_cons, hstep, pickFrom, herr, Option.isNone_some,
        Bool.false_and, Bool.false_eq_true, if_false]
      exact ih b
    | none =>
      by_cases hlt : escLt p.2.mae b.2.mae
      · have hstep : selStep (some b.1, b.2.mae, b.2) p = (some p.1, p.2.mae, p.2) := by
          simp [selStep, herr, hlt]
        simp only [List.foldl_cons, hstep, pickFrom, herr, Option.isNone_none,
          Bool.true_and, hlt, if_true]
        exact ih p
      · have hstep : selStep (some b.1, b.2.mae, b.2) p = (some b.1, b.2.mae, b.2) := by
          simp [selStep, herr, hlt]
        simp only [List.foldl_cons, hstep, pickFrom, herr, Option.isNone_none,
          Bool.true_and, hlt, if_false]
        exact ih b

theorem sel_foldl_none_good (l : List (String × BTResult)) :
    ∀ (r0 : BTResult) (b : String × BTResult), b.2.mae = none →
      (∃ p ∈ l, goodFin p = true) →
      l.foldl selStep (none, none, r0)
        = (some (pickFrom b l).1, (pickFrom b l).2.mae, (pickFrom b l).2) := by
  induction l with
  | nil =>
    intro r0 b hb hex
    obtain ⟨p, hp, _⟩ := hex
    exact absurd hp (List.not_mem_nil p)
  | cons p l ih =>
    intro r0 b hb hex
    cases herr : p.2.error with
    | some e =>
      have hstep : selStep (none, none, r0) p = (none, none, r0) := by
        simp [selStep, herr]
      have hex2 : ∃ q ∈ l, goodFin q = true := by
        obtain ⟨q, hq, hgf⟩ := hex
        rcases List.mem_cons.mp hq with rfl | hq2
        · rw [goodFin, herr] at hgf
          simp at hgf
        · exact ⟨q, hq2, hgf⟩
      simp only [List.foldl_cons, hstep, pickFrom, herr, Option.isNone_some,
        Bool.false_and, Bool.false_eq_true, if_false]
      exact ih r0 b hb hex2
    | none =>
      cases hmae : p.2.mae with
      | some m =>
        have hstep : selStep (none, none, r0) p = (some p.1, p.2.mae, p.2) := by
          simp [selStep, herr, escLt, hmae]
        have hcond : (p.2.error.isNone && escLt p.2.mae b.2.mae) = true := by
          simp [herr, hmae, hb, escLt]
        simp only [List.foldl_cons, hstep, pickFrom, hcond, if_true]
        exact sel_foldl_some l p
      | none =>
        have hstep : selStep (none, none, r0) p = (none, none, r0) := by
          simp [selStep, herr, escLt, hmae]
        have hex2 : ∃ q ∈ l, goodFin q = true := by
          obtain ⟨q, hq, hgf⟩ := hex
          rcases List.mem_cons.mp hq with rfl | hq2
          · rw [goodFin, hmae] at hgf
            simp at hgf
          · exact ⟨q, hq2, hgf⟩
        have hcond : (p.2.error.isNone && escLt p.2.mae b.2.mae) = false := by
          simp [hmae, escLt]
        simp only [List.foldl_cons, hstep, pickFrom, hcond, if_false]
        exact ih r0 b hb hex2

theorem sel_foldl_none_bad (l : List (String × BTResult)) :
    ∀ r0 : BTResult, (∀ p ∈ l, goodFin p = false) →
      l.foldl selStep (none, none, r0) = (none, none, r0) := by
  induction l with
  | nil => intro r0 _; rfl
  | cons p l ih =>
    intro r0 hall
    have hstep : selStep (none, none, r0) p = (none, none, r0) := by
      have hp := hall p (List.mem_cons_self p l)
      rw [goodFin] at hp
      cases herr : p.2.error with
      | some e => simp [selStep, herr]
      | none =>
        rw [herr] at hp
        simp only [Option.isNone_none, Bool.true_and] at hp
        cases hmae : p.2.mae with
        | some m => rw [hmae] at hp; simp at hp
        | none => simp [selStep, herr, escLt, hmae]
    simp only [List.foldl_cons, hstep]
    exact ih r0 (fun q hq => hall q (List.mem_cons_of_mem p hq))

theorem pickFrom_filter (l : List (String × BTResult)) :
    ∀ b : String × BTResult, pickFrom b l = pickFrom b (l.filter errFree) := by
  induction l with
  | nil => intro b; rfl
  | cons p l ih =>
    intro b
    cases herr : p.2.error with
    | some e =>
      have hef : errFree p = false := by simp [errFree, herr]
      simp only [pickFrom, herr, Option.isNone_some, Bool.false_and,
        Bool.false_eq_true, if_false, List.filter_cons, hef]
      exact ih b
    | none =>
      have hef : errFree p = true := by simp [errFree, herr]
      simp only [pickFrom, herr, Option.isNone_none, Bool.true_and, List.filter_cons, hef]
      by_cases hlt : escLt p.2.mae b.2.mae
      · simp only [hlt, if_true, pickFrom, herr, Option.isNone_none, Bool.true_and]
        exact ih p
      · simp only [hlt, if_false, pickFrom, herr, Option.isNone_none, Bool.true_and]
        exact ih b

theorem pickFrom_inf_seed (l : List (String × BTResult)) :
    ∀ b b2 : String × BTResult, b.2.mae = none → b2.2.mae = none →
      (∃ p ∈ l, goodFin p = true) → pickFrom b l = pickFrom b2 l := by
  induction l with
  | nil =>
    intro b b2 _ _ hex
    obtain ⟨p, hp, _⟩ := hex
    exact absurd hp (List.not_mem_nil p)
  | cons p l ih =>
    intro b b2 hb hb2 hex
    cases herr : p.2.error with
    | some e =>
      have hex2 : ∃ q ∈ l, goodFin q = true := by
        obtain ⟨q, hq, hgf⟩ := hex
        rcases List.mem_cons.mp hq with rfl | hq2
        · rw [goodFin, herr] at hgf
          simp at hgf
        · exact ⟨q, hq2, hgf⟩
      simp only [pickFrom, herr, Option.isNone_some, Bool.false_and,
        Bool.false_eq_true, if_false]
      exact ih b b2 hb hb2 hex2
    | none =>
      cases hmae : p.2.mae with
      | some m =>
        simp only [pickFrom, herr, Option.isNone_none, Bool.true_and, hmae, hb, hb2]
        rfl
      | none =>
        have hex2 : ∃ q ∈ l, goodFin q = true := by
          obtain ⟨q, hq, hgf⟩ := hex
          rcases List.mem_cons.mp hq with rfl | hq2
          · rw [goodFin, hmae] at hgf
            simp at hgf
          · exact ⟨q, hq2, hgf⟩
        simp only [pickFrom, herr, Option.isNone_none, Bool.true_and, hmae, hb, hb2]
        simp only [escLt, Bool.false_eq_true, if_false]
        exact ih b b2 hb hb2 hex2

theorem foldl_selCmp_pickFrom (l : List (String × BTResult)) :
    ∀ b : String × BTResult, (∀ p ∈ l, errFree p = true) →
      l.foldl selCmp b = pickFrom b l := by
  induction l with
  | nil => intro b _; rfl
  | cons p l ih =>
    intro b hall
    have hef : p.2.error.isNone = true := hall p (List.mem_cons_self p l)
    have htail : ∀ q ∈ l, errFree q = true :=
      fun q hq => hall q (List.mem_cons_of_mem p hq)
    simp only [List.foldl_cons, selCmp, pickFrom, hef, Bool.true_and]
    by_cases hlt : escLt p.2.mae b.2.mae
    · simp only [hlt, if_true]
      exact ih p htail
    · simp only [hlt, if_false]
      exact ih b htail

theorem foldl_selCmp_inf (l : List (String × BTResult)) :
    ∀ b : String × BTResult, (∀ p ∈ l, p.2.mae = none) → l.foldl selCmp b = b := by
  induction l with
  | nil => intro b _; rfl
  | cons p l ih =>
    intro b hall
    have hp : p.2.mae = none := hall p (List.mem_cons_self p l)
    simp only [List.foldl_cons, selCmp, hp, escLt, Bool.false_eq_true, if_false]
    exact ih b (fun q hq => hall q (List.mem_cons_of_mem p hq))

/-- Claim C1 counterexample.  The claim states that select_best_model
returns the entry with the strictly lowest MAE among the entries without an
error field whenever the mapping is nonempty, falling back to the first
entry only when every entry has an error.  In the mapping below the only
error-free entry is B (with infinite MAE, as the nonpositive-horizon path
produces), yet the source returns the errored first entry A, because an
infinite MAE never beats the infinite initial best. -/
theorem c1_counterexample :
    (select_best_model
        [("A", ⟨none, none, [], none, some "boom"⟩),
         ("B", ⟨none, none, [], none, none⟩)]).toOption.map Prod.fst = some "A" ∧
    (([("A", (⟨none, none, [], none, some "boom"⟩ : BTResult)),
       ("B", ⟨none, none, [], none, none⟩)].filter errFree).map Prod.fst = ["B"]) := by
  decide

/-- Claim C1 amended.  select_best_model agrees with the stated selection
rule, select_best_model_spec, whenever no error-free entry exists, or some
error-free entry has a finite MAE, or the first entry of the mapping is
error-free.  In the one remaining situation, an errored first entry while
every error-free entry has infinite MAE, the source returns the first entry
of the mapping instead of the first error-free entry. -/
theorem c1_amended_selection (results : List (String × BTResult))
    (hyp : ((results.filter errFree).isEmpty
         || (results.filter errFree).any (fun p => p.2.mae.isSome)
         || results.head?.all errFree) = true) :
    select_best_model results = select_best_model_spec results := by
  cases results with
  | nil => rfl
  | cons r0 rest =>
    by_cases hgood : ∃ p ∈ r0 :: rest, goodFin p = true
    · cases hfil : (r0 :: rest).filter errFree with
      | nil =>
        exfalso
        obtain ⟨p, hp, hgf⟩ := hgood
        have hef : errFree p = true := by
          rw [goodFin, Bool.and_eq_true] at hgf
          rw [errFree]
          exact hgf.1
        have hmem : p ∈ (r0 :: rest).filter errFree := List.mem_filter.mpr ⟨hp, hef⟩
        rw [hfil] at hmem
        exact absurd hmem (List.not_mem_nil p)
      | cons e es =>
        have hcode : select_best_model (r0 :: rest)
            = .ok (pickFrom ("", ⟨none, none, [], none, none⟩) (r0 :: rest)) := by
          unfold select_best_model
          rw [sel_foldl_none_good (r0 :: rest) _ ("", ⟨none, none, [], none, none⟩)
            rfl hgood]
        have hes_ef : ∀ p ∈ es, errFree p = true := by
          intro p hp
          have hmem : p ∈ (r0 :: rest).filter errFree := by
            rw [hfil]
            exact List.mem_cons_of_mem e hp
          exact (List.mem_filter.mp hmem).2
        have he_ef : errFree e = true := by
          have hmem : e ∈ (r0 :: rest).filter errFree := by
            rw [hfil]
            exact List.mem_cons_self e es
          exact (List.mem_filter.mp hmem).2
        have hspec : select_best_model_spec (r0 :: rest) = .ok (pickFrom e es) := by
          simp only [select_best_model_spec, hfil]
          rw [foldl_selCmp_pickFrom es e hes_ef]
        rw [hcode, hspec, pickFrom_filter, hfil]
        cases hemae : e.2.mae with
        | some m =>
          have hcond : (e.2.error.isNone
              && escLt e.2.mae ("", (⟨none, none, [], none, none⟩ : BTResult)).2.mae) = true := by
            rw [errFree] at he_ef
            simp [he_ef, hemae, escLt]
          simp only [pickFrom, hcond, if_true]
        | none =>
          have hcond : (e.2.error.isNone
              && escLt e.2.mae ("", (⟨none, none, [], none, none⟩ : BTResult)).2.mae) = false := by
            simp [hemae, escLt]
          simp only [pickFrom, hcond, if_false]
          congr 1
          apply pickFrom_inf_seed es _ e rfl hemae
          obtain ⟨g, hg, hggf⟩ := hgood
          have hgef : errFree g = true := by
            rw [goodFin, Bool.and_eq_true] at hggf
            rw [errFree]
            exact hggf.1
          have hgfil : g ∈ e :: es := by
            rw [← hfil]
            exact List.mem_filter.mpr ⟨hg, hgef⟩
          rcases List.mem_cons.mp hgfil with rfl | hges
          · rw [goodFin, hemae] at hggf
            simp at hggf
          · exact ⟨g, hges, hggf⟩
    · have hallbad : ∀ p ∈ r0 :: rest, goodFin p = false := by
        intro p hp
        cases hgf : goodFin p with
        | false => rfl
        | true => exact absurd ⟨p, hp, hgf⟩ hgood
      have hcode : select_best_model (r0 :: rest) = .ok r0 := by
        unfold select_best_model
        rw [sel_foldl_none_bad (r0 :: rest) _ hallbad]
      cases hfil : (r0 :: rest).filter errFree with
      | nil =>
        have hspec : select_best_model_spec (r0 :: rest) = .ok r0 := by
          simp only [select_best_model_spec, hfil]
        rw [hcode, hspec]
      | cons e es =>
        have hany : ((r0 :: rest).filter errFree).any (fun p => p.2.mae.isSome) = false := by
          cases ha : ((r0 :: rest).filter errFree).any (fun p => p.2.mae.isSome) with
          | false => rfl
          | true =>
            exfalso
            obtain ⟨p, hpfil, hps⟩ := List.any_eq_true.mp ha
            have hpef := (List.mem_filter.mp hpfil).2
            have hpmem := (List.mem_filter.mp hpfil).1
            have : goodFin p = true := by
              rw [goodFin]
              rw [errFree] at hpef
              simp [hpef, hps]
            exact hgood ⟨p, hpmem, this⟩
        have hempty : ((r0 :: rest).filter errFree).isEmpty = false := by
          rw [hfil]
          rfl
        rw [hempty, hany] at hyp
        simp only [Bool.false_or, List.head?_cons, Option.all_some] at hyp
        have hfil2 : (r0 :: rest).filter errFree = r0 :: rest.filter errFree := by
          rw [List.filter_cons, if_pos hyp]
        rw [hfil2] at hfil
        injection hfil with he hes
        have hesinf : ∀ p ∈ es, p.2.mae = none := by
          intro p hp
          rw [← hes] at hp
          have hpef := (List.mem_filter.mp hp).2
          have hpmem := (List.mem_filter.mp hp).1
          have hbad := hallbad p (List.mem_cons_of_mem r0 hpmem)
          rw [goodFin] at hbad
          rw [errFree] at hpef
          rw [hpef] at hbad
          simp only [Bool.true_and] at hbad
          exact Option.not_isSome_iff_eq_none.mp (by rw [hbad]; exact Bool.false_ne_true)
        have hspec : select_best_model_spec (r0 :: rest) = .ok r0 := by
          simp only [select_best_model_spec, hfil2]
          rw [hes, foldl_selCmp_inf es r0 hesinf]
        rw [hcode, hspec]

/-- Claim C1 witness: on the spec example, A with MAE 5, B with MAE 2, C
errored, some error-free entry has a finite MAE, so the source selection
agrees with the stated rule (both return B). -/
theorem c1_amended_selection_witness :
    select_best_model
        [("A", ⟨some 5, some 5, [], none, none⟩),
         ("B", ⟨some 2, some 2, [], none, none⟩),
         ("C", ⟨none, none, [], none, some "failed"⟩)]
      = select_best_model_spec
        [("A", ⟨some 5, some 5, [], none, none⟩),
         ("B", ⟨some 2, some 2, [], none, none⟩),
         ("C", ⟨none, none, [], none, some "failed"⟩)] :=
  c1_amended_selection
    [("A", ⟨some 5, some 5, [], none, none⟩),
     ("B", ⟨some 2, some 2, [], none, none⟩),
     ("C", ⟨none, none, [], none, some "failed"⟩)] (by decide)

end RunRate
